import Mathlib

/-!
Verification of the boid flocking engine of the first sketch: agent
state, steering calculator, mode controller and integrator, embedded as
pure functions over real-valued 3D vectors.  Vector operations mirror
the THREE.Vector3 methods the sketch uses (length, distanceTo,
normalize, clampLength, lerp, multiplyScalar, divideScalar).
-/

/-- A 3D vector with real coordinates, modelling THREE.Vector3. -/
@[ext]
structure Vec3 where
  x : ℝ
  y : ℝ
  z : ℝ

namespace Vec3

/-- The zero vector, `new THREE.Vector3()`. -/
def zero : Vec3 := ⟨0, 0, 0⟩

instance : Add Vec3 := ⟨fun a b => ⟨a.x + b.x, a.y + b.y, a.z + b.z⟩⟩

instance : Sub Vec3 := ⟨fun a b => ⟨a.x - b.x, a.y - b.y, a.z - b.z⟩⟩

/-- `multiplyScalar`: componentwise scaling. -/
def smul (v : Vec3) (c : ℝ) : Vec3 := ⟨v.x * c, v.y * c, v.z * c⟩

@[simp] lemma zero_x : zero.x = 0 := rfl

@[simp] lemma zero_y : zero.y = 0 := rfl

@[simp] lemma zero_z : zero.z = 0 := rfl

@[simp] lemma add_x (a b : Vec3) : (a + b).x = a.x + b.x := rfl

@[simp] lemma add_y (a b : Vec3) : (a + b).y = a.y + b.y := rfl

@[simp] lemma add_z (a b : Vec3) : (a + b).z = a.z + b.z := rfl

@[simp] lemma sub_x (a b : Vec3) : (a - b).x = a.x - b.x := rfl

@[simp] lemma sub_y (a b : Vec3) : (a - b).y = a.y - b.y := rfl

@[simp] lemma sub_z (a b : Vec3) : (a - b).z = a.z - b.z := rfl

@[simp] lemma smul_x (v : Vec3) (c : ℝ) : (v.smul c).x = v.x * c := rfl

@[simp] lemma smul_y (v : Vec3) (c : ℝ) : (v.smul c).y = v.y * c := rfl

@[simp] lemma smul_z (v : Vec3) (c : ℝ) : (v.smul c).z = v.z * c := rfl

/-- `length()`: Euclidean norm. -/
noncomputable def length (v : Vec3) : ℝ :=
  Real.sqrt (v.x * v.x + v.y * v.y + v.z * v.z)

/-- `a.distanceTo(b)`: Euclidean distance. -/
noncomputable def distanceTo (a b : Vec3) : ℝ :=
  Real.sqrt ((a.x - b.x) * (a.x - b.x) + (a.y - b.y) * (a.y - b.y) +
    (a.z - b.z) * (a.z - b.z))

/-- The JavaScript idiom `r || 1` applied to a (nonnegative) length. -/
noncomputable def orOne (r : ℝ) : ℝ := if r = 0 then 1 else r

/-- `normalize()`: `divideScalar(length() || 1)`. -/
noncomputable def normalize (v : Vec3) : Vec3 := v.smul (1 / orOne v.length)

/-- `clampLength(lo, hi)`:
`divideScalar(length() || 1).multiplyScalar(max(lo, min(hi, length())))`. -/
noncomputable def clampLength (v : Vec3) (lo hi : ℝ) : Vec3 :=
  v.smul (max lo (min hi v.length) / orOne v.length)

/-- `a.lerp(b, t)`: componentwise `a += (b - a) * t`. -/
def lerp (v w : Vec3) (t : ℝ) : Vec3 :=
  ⟨v.x + (w.x - v.x) * t, v.y + (w.y - v.y) * t, v.z + (w.z - v.z) * t⟩

@[simp] lemma lerp_x (v w : Vec3) (t : ℝ) : (lerp v w t).x = v.x + (w.x - v.x) * t := rfl

@[simp] lemma lerp_y (v w : Vec3) (t : ℝ) : (lerp v w t).y = v.y + (w.y - v.y) * t := rfl

@[simp] lemma lerp_z (v w : Vec3) (t : ℝ) : (lerp v w t).z = v.z + (w.z - v.z) * t := rfl

lemma length_nonneg (v : Vec3) : 0 ≤ v.length := Real.sqrt_nonneg _

lemma distanceTo_eq_length_sub (a b : Vec3) : a.distanceTo b = (a - b).length := rfl

@[simp] lemma length_zero : (zero).length = 0 := by
  simp [length]

lemma length_smul (v : Vec3) (c : ℝ) : (v.smul c).length = |c| * v.length := by
  unfold length smul
  rw [show v.x * c * (v.x * c) + v.y * c * (v.y * c) + v.z * c * (v.z * c) =
      c ^ 2 * (v.x * v.x + v.y * v.y + v.z * v.z) by ring]
  rw [Real.sqrt_mul (sq_nonneg c), Real.sqrt_sq_eq_abs]

lemma smul_smul (v : Vec3) (a b : ℝ) : (v.smul a).smul b = v.smul (a * b) := by
  ext <;> simp <;> ring

@[simp] lemma smul_zero_vec (c : ℝ) : (zero).smul c = zero := by
  ext <;> simp

lemma length_single (a : ℝ) : (Vec3.mk a 0 0).length = |a| := by
  unfold length
  rw [show a * a + 0 * 0 + 0 * 0 = a * a by ring, Real.sqrt_mul_self_eq_abs]

lemma distanceTo_single (a b : ℝ) :
    (Vec3.mk a 0 0).distanceTo (Vec3.mk b 0 0) = |a - b| := by
  unfold distanceTo
  rw [show (a - b) * (a - b) + (0 - 0) * (0 - 0) + (0 - 0) * (0 - 0) =
      (a - b) * (a - b) by ring, Real.sqrt_mul_self_eq_abs]

lemma orOne_of_ne (r : ℝ) (h : r ≠ 0) : orOne r = r := by
  simp [orOne, h]

lemma length_normalize {v : Vec3} (h : v.length ≠ 0) : (normalize v).length = 1 := by
  have hpos : 0 < v.length := lt_of_le_of_ne (length_nonneg v) (Ne.symm h)
  rw [normalize, length_smul, orOne_of_ne _ h, abs_of_pos (by positivity)]
  field_simp

/-- The clamped vector has length at most the upper clamp bound. -/
lemma length_clampLength_le (v : Vec3) (m : ℝ) (hm : 0 ≤ m) :
    (clampLength v 0 m).length ≤ m := by
  rw [clampLength, length_smul]
  rcases eq_or_ne v.length 0 with h0 | h0
  · rw [h0]
    simpa using hm
  · have hpos : 0 < v.length := lt_of_le_of_ne (length_nonneg v) (Ne.symm h0)
    rw [orOne_of_ne _ h0]
    have hcl : max 0 (min m v.length) ≤ m := by
      apply max_le hm (min_le_left _ _)
    have hcl0 : 0 ≤ max 0 (min m v.length) := le_max_left _ _
    rw [abs_of_nonneg (by positivity)]
    rw [div_mul_cancel₀ _ h0]
    exact hcl

/-- Clamping a positive-length vector with lower bound `0` rescales it to
length `min hi length`. -/
lemma clampLength_of_pos {v : Vec3} {m : ℝ} (hv : 0 < v.length) (hm : 0 ≤ m) :
    clampLength v 0 m = (normalize v).smul (min m v.length) := by
  have hne : v.length ≠ 0 := ne_of_gt hv
  rw [clampLength, normalize, orOne_of_ne _ hne, smul_smul]
  have hmin0 : 0 ≤ min m v.length := le_min hm (le_of_lt hv)
  rw [max_eq_right hmin0]
  congr 1
  field_simp

end Vec3

/-!
Configuration constants of the sketch (the CONFIG object), restricted to
the fields the flocking engine reads.
-/

namespace CONFIG

noncomputable def maxSpeed : ℝ := 2

noncomputable def maxForce : ℝ := 0.05

noncomputable def separationRadius : ℝ := 25

noncomputable def alignmentRadius : ℝ := 50

noncomputable def cohesionRadius : ℝ := 50

noncomputable def separationWeight : ℝ := 1.5

noncomputable def alignmentWeight : ℝ := 1.0

noncomputable def cohesionWeight : ℝ := 1.0

noncomputable def mouseRepelRadius : ℝ := 50

noncomputable def mouseRepelStrength : ℝ := 3.0

noncomputable def boundarySize : ℝ := 300

noncomputable def homeAttractionStrength : ℝ := 1.2

end CONFIG

/-- `SCATTER_DURATION`: scatter timer duration in frames. -/
def SCATTER_DURATION : Nat := 180

/-- The physics-relevant state of one boid (the mesh/colour fields are
pure rendering outputs and are not modelled). -/
structure Boid where
  position : Vec3
  velocity : Vec3
  acceleration : Vec3
  homePosition : Vec3
  isNearMouse : Bool

namespace Boid

/-- `separation(boids)`: steer to avoid crowding.  `others` is the list
of all boids except the acting one (the source skips `this` by object
identity). -/
noncomputable def separation (b : Boid) (others : List Boid) : Vec3 :=
  let acc := others.foldl
    (fun (acc : Vec3 × Nat) o =>
      let d := b.position.distanceTo o.position
      if 0 < d ∧ d < CONFIG.separationRadius then
        (acc.1 + (Vec3.normalize (b.position - o.position)).smul (1 / d), acc.2 + 1)
      else acc)
    (Vec3.zero, 0)
  let steer := acc.1
  let count := acc.2
  if 0 < count then
    Vec3.clampLength
      (((Vec3.normalize (steer.smul (1 / (count : ℝ)))).smul CONFIG.maxSpeed) - b.velocity)
      0 CONFIG.maxForce
  else steer

/-- `alignment(boids)`: steer towards the average heading of
neighbours. -/
noncomputable def alignment (b : Boid) (others : List Boid) : Vec3 :=
  let acc := others.foldl
    (fun (acc : Vec3 × Nat) o =>
      let d := b.position.distanceTo o.position
      if 0 < d ∧ d < CONFIG.alignmentRadius then
        (acc.1 + o.velocity, acc.2 + 1)
      else acc)
    (Vec3.zero, 0)
  let avgVelocity := acc.1
  let count := acc.2
  if 0 < count then
    Vec3.clampLength
      (((Vec3.normalize (avgVelocity.smul (1 / (count : ℝ)))).smul CONFIG.maxSpeed) - b.velocity)
      0 CONFIG.maxForce
  else Vec3.zero

/-- `seek(target)`: steer towards a target position. -/
noncomputable def seek (b : Boid) (target : Vec3) : Vec3 :=
  Vec3.clampLength
    (((Vec3.normalize (target - b.position)).smul CONFIG.maxSpeed) - b.velocity)
    0 CONFIG.maxForce

/-- `cohesion(boids)`: steer towards the centre of mass of
neighbours. -/
noncomputable def cohesion (b : Boid) (others : List Boid) : Vec3 :=
  let acc := others.foldl
    (fun (acc : Vec3 × Nat) o =>
      let d := b.position.distanceTo o.position
      if 0 < d ∧ d < CONFIG.cohesionRadius then
        (acc.1 + o.position, acc.2 + 1)
      else acc)
    (Vec3.zero, 0)
  let centerOfMass := acc.1
  let count := acc.2
  if 0 < count then
    b.seek (centerOfMass.smul (1 / (count : ℝ)))
  else Vec3.zero

/-- `seekHome()`: seek the home position, scaled by
`homeAttractionStrength`. -/
noncomputable def seekHome (b : Boid) : Vec3 :=
  (b.seek b.homePosition).smul CONFIG.homeAttractionStrength

/-- `mouseRepel(mousePosition)`: flee from the mouse.  Returns the
updated boid (the `isNearMouse` side effect) together with the returned
force vector. -/
noncomputable def mouseRepel (b : Boid) (mousePosition : Vec3) : Boid × Vec3 :=
  let d := b.position.distanceTo mousePosition
  if d < CONFIG.mouseRepelRadius ∧ 0 < d then
    ({ b with isNearMouse := true },
      Vec3.clampLength
        ((Vec3.normalize (b.position - mousePosition)).smul
          (CONFIG.mouseRepelStrength * (1 - d / CONFIG.mouseRepelRadius)))
        0 (CONFIG.maxForce * 4))
  else (b, Vec3.zero)

/-- `flock(boids, mousePosition, isMouseActive, scattered)`: apply all
flocking behaviours to the acting boid for one frame. -/
noncomputable def flock (b : Boid) (others : List Boid) (mousePosition : Vec3)
    (isMouseActive scattered : Bool) : Boid :=
  let sep := (b.separation others).smul CONFIG.separationWeight
  let ali := (b.alignment others).smul CONFIG.alignmentWeight
  let coh := (b.cohesion others).smul CONFIG.cohesionWeight
  let b1 :=
    if scattered then
      { b with acceleration := b.acceleration + sep + ali + coh }
    else
      { b with velocity := Vec3.zero,
               position := Vec3.lerp b.position b.homePosition 0.1 }
  if isMouseActive then
    let mr := b1.mouseRepel mousePosition
    { mr.1 with acceleration := mr.1.acceleration + mr.2 }
  else b1

/-- `wrapEdges()`: per-axis teleport wrap at the boundary, with the
source's sequential pair of conditionals on each axis. -/
noncomputable def wrapEdges (p : Vec3) : Vec3 :=
  let bound := CONFIG.boundarySize
  let x1 := if bound < p.x then -bound else p.x
  let x2 := if x1 < -bound then bound else x1
  let y1 := if bound < p.y then -bound else p.y
  let y2 := if y1 < -bound then bound else y1
  let z1 := if bound < p.z then -bound else p.z
  let z2 := if z1 < -bound then bound else z1
  ⟨x2, y2, z2⟩

/-- `update(scattered)`: integrate one frame for one boid (velocity
update, speed clamp, near-home damping, position update, boundary wrap,
acceleration reset, `isNearMouse` reset). -/
noncomputable def update (b : Boid) (scattered : Bool) : Boid :=
  let v1 := b.velocity + b.acceleration
  let v2 := Vec3.clampLength v1 0 CONFIG.maxSpeed
  let v3 :=
    if scattered then v2
    else
      if b.position.distanceTo b.homePosition < 20 then v2.smul 0.85
      else if b.position.distanceTo b.homePosition < 50 then v2.smul 0.95
      else v2
  let p := wrapEdges (b.position + v3)
  { position := p, velocity := v3, acceleration := Vec3.zero,
    homePosition := b.homePosition, isNearMouse := false }

end Boid

/-!
Mode controller (`isScattered` / `scatterTimer` management at the top of
`animate`) and the first (flock) pass over the swarm.
-/

/-- The process-wide mode state: `isScattered` and `scatterTimer`. -/
structure ModeState where
  isScattered : Bool
  scatterTimer : Nat

/-- The collision trigger evaluated at the top of `animate`: the mouse is
active and some boid is within distance 30 of the mouse. -/
noncomputable def triggerCheck (boids : List Boid) (mousePos : Vec3)
    (mouseActive : Bool) : Bool :=
  mouseActive && boids.any (fun b => decide (b.position.distanceTo mousePos < 30))

/-- One frame of mode management in `animate`: evaluate the collision
trigger (arming the scatter state and timer), then the timer countdown
that reverts to formed when the timer is exhausted. -/
noncomputable def modeFrame (boids : List Boid) (mousePos : Vec3)
    (mouseActive : Bool) (s : ModeState) : ModeState :=
  let s1 :=
    if triggerCheck boids mousePos mouseActive then
      { isScattered := true, scatterTimer := SCATTER_DURATION }
    else s
  if 0 < s1.scatterTimer then
    { s1 with scatterTimer := s1.scatterTimer - 1 }
  else
    { s1 with isScattered := false }

/-- One step of the first pass of `animate`: boid `i` is replaced by the
result of its `flock` call, which reads the current (partially updated)
array and skips the acting boid by identity. -/
noncomputable def flockAt (mousePos : Vec3) (mouseActive scattered : Bool)
    (arr : List Boid) (i : Nat) : List Boid :=
  match arr.get? i with
  | some b => arr.set i (b.flock (arr.eraseIdx i) mousePos mouseActive scattered)
  | none => arr

/-- Run the flock pass over indices `i, i+1, ...` for `n` steps. -/
noncomputable def flockPassN (mousePos : Vec3) (mouseActive scattered : Bool) :
    Nat → Nat → List Boid → List Boid
  | 0, _, arr => arr
  | n + 1, i, arr =>
      flockPassN mousePos mouseActive scattered n (i + 1)
        (flockAt mousePos mouseActive scattered arr i)

/-- The first (flock) loop of `animate`: every boid's `flock` is invoked
in array order, in place. -/
noncomputable def flockPass (arr : List Boid) (mousePos : Vec3)
    (mouseActive scattered : Bool) : List Boid :=
  flockPassN mousePos mouseActive scattered arr.length 0 arr

/-- One full formed-mode frame for a single boid with the pointer
inactive: the `flock` call followed by the `update` call of `animate`. -/
noncomputable def frameFormed (others : List Boid) (mousePos : Vec3) (b : Boid) : Boid :=
  (b.flock others mousePos false false).update false

/-!
Helper lemmas about the neighbour-accumulating folds and the speed
clamp.
-/

/-- Damping multiplies the speed by a factor in `[0, 1]`, so it cannot
increase it. -/
lemma Vec3.length_smul_le_of_le_one (v : Vec3) {c : ℝ} (h0 : 0 ≤ c) (h1 : c ≤ 1) :
    (v.smul c).length ≤ v.length := by
  rw [Vec3.length_smul, abs_of_nonneg h0]
  nlinarith [Vec3.length_nonneg v]

/-- The neighbour folds either leave the accumulator unchanged or add a
contribution and bump the count; hence the count is monotone, and a
final count equal to the initial one means the vector accumulator is
unchanged. -/
lemma foldl_pair (step : Vec3 × Nat → Boid → Vec3 × Nat)
    (hstep : ∀ p o, step p o = p ∨ ∃ w, step p o = (p.1 + w, p.2 + 1)) :
    ∀ (l : List Boid) (p : Vec3 × Nat),
      p.2 ≤ (l.foldl step p).2 ∧
        ((l.foldl step p).2 = p.2 → (l.foldl step p).1 = p.1) := by
  intro l
  induction l with
  | nil => intro p; exact ⟨le_refl _, fun _ => rfl⟩
  | cons o t ih =>
    intro p
    rcases hstep p o with h | ⟨w, h⟩
    · simpa [List.foldl_cons, h] using ih p
    · constructor
      · rw [List.foldl_cons, h]
        exact le_trans (Nat.le_succ p.2) (ih (p.1 + w, p.2 + 1)).1
      · intro heq
        rw [List.foldl_cons, h] at heq
        have h1 := (ih (p.1 + w, p.2 + 1)).1
        exact absurd heq (by omega)

/-- A fold whose step fixes every accumulator on every list element is
the identity. -/
lemma foldl_fixed {β : Type} (step : Vec3 × Nat → β → Vec3 × Nat)
    (l : List β) (p : Vec3 × Nat) (h : ∀ o ∈ l, ∀ q, step q o = q) :
    l.foldl step p = p := by
  induction l generalizing p with
  | nil => rfl
  | cons o t ih =>
    rw [List.foldl_cons, h o (List.mem_cons_self o t)]
    exact ih p (fun o ho q => h o (List.mem_cons_of_mem _ ho) q)

lemma maxForce_nonneg : (0:ℝ) ≤ CONFIG.maxForce := by norm_num [CONFIG.maxForce]

/-- The separation steering vector never exceeds `maxForce`. -/
lemma separation_length_le (b : Boid) (others : List Boid) :
    (b.separation others).length ≤ CONFIG.maxForce := by
  unfold Boid.separation
  dsimp only
  split_ifs with h
  · exact Vec3.length_clampLength_le _ _ maxForce_nonneg
  · have hstep : ∀ (p : Vec3 × Nat) (o : Boid),
        (fun (acc : Vec3 × Nat) o =>
          if 0 < b.position.distanceTo o.position ∧
              b.position.distanceTo o.position < CONFIG.separationRadius then
            (acc.1 + (Vec3.normalize (b.position - o.position)).smul
              (1 / b.position.distanceTo o.position), acc.2 + 1)
          else acc) p o = p ∨
        ∃ w, (fun (acc : Vec3 × Nat) o =>
          if 0 < b.position.distanceTo o.position ∧
              b.position.distanceTo o.position < CONFIG.separationRadius then
            (acc.1 + (Vec3.normalize (b.position - o.position)).smul
              (1 / b.position.distanceTo o.position), acc.2 + 1)
          else acc) p o = (p.1 + w, p.2 + 1) := by
      intro p o
      dsimp only
      split_ifs with hc
      · exact Or.inr ⟨_, rfl⟩
      · exact Or.inl rfl
    have h0 := (foldl_pair _ hstep others (Vec3.zero, 0)).2 (by omega)
    rw [h0, Vec3.length_zero]
    exact maxForce_nonneg

/-- The alignment steering vector never exceeds `maxForce`. -/
lemma alignment_length_le (b : Boid) (others : List Boid) :
    (b.alignment others).length ≤ CONFIG.maxForce := by
  unfold Boid.alignment
  dsimp only
  split_ifs with h
  · exact Vec3.length_clampLength_le _ _ maxForce_nonneg
  · rw [Vec3.length_zero]
    exact maxForce_nonneg

/-- The seek steering vector never exceeds `maxForce`. -/
lemma seek_length_le (b : Boid) (t : Vec3) : (b.seek t).length ≤ CONFIG.maxForce := by
  unfold Boid.seek
  exact Vec3.length_clampLength_le _ _ maxForce_nonneg

/-- The cohesion steering vector never exceeds `maxForce`. -/
lemma cohesion_length_le (b : Boid) (others : List Boid) :
    (b.cohesion others).length ≤ CONFIG.maxForce := by
  unfold Boid.cohesion
  dsimp only
  split_ifs with h
  · exact seek_length_le b _
  · rw [Vec3.length_zero]
    exact maxForce_nonneg

/-- The mouse-repulsion force never exceeds `maxForce * 4`. -/
lemma mouseRepel_force_le (b : Boid) (m : Vec3) :
    ((b.mouseRepel m).2).length ≤ CONFIG.maxForce * 4 := by
  unfold Boid.mouseRepel
  dsimp only
  split_ifs with h
  · exact Vec3.length_clampLength_le _ _ (by norm_num [CONFIG.maxForce])
  · simpa using (by norm_num [CONFIG.maxForce] : (0:ℝ) ≤ CONFIG.maxForce * 4)

/-- C1: after every per-frame `Boid.update`, the magnitude of the
velocity is at most `maxSpeed`: the clamp right after the acceleration
is added establishes the bound, and the damping (a factor in `[0, 1]`),
the position integration and the boundary wrap preserve it, regardless
of the incoming state and of the mode. -/
theorem velocity_bounded_after_update (b : Boid) (scattered : Bool) :
    ((b.update scattered).velocity).length ≤ CONFIG.maxSpeed := by
  have hms : (0:ℝ) ≤ CONFIG.maxSpeed := by norm_num [CONFIG.maxSpeed]
  have hcl := Vec3.length_clampLength_le (b.velocity + b.acceleration) CONFIG.maxSpeed hms
  unfold Boid.update
  dsimp only
  split_ifs with h1 h2 h3
  · exact hcl
  · exact le_trans (Vec3.length_smul_le_of_le_one _ (by norm_num) (by norm_num)) hcl
  · exact le_trans (Vec3.length_smul_le_of_le_one _ (by norm_num) (by norm_num)) hcl
  · exact hcl

/-- C2 (amended): each steering contribution as actually applied, after
its per-behaviour weight is multiplied in, has magnitude at most that
weight times `maxForce` (`separationWeight * maxForce` for separation,
`maxForce` for alignment and cohesion whose weights are `1.0`), and the
mouse-repulsion contribution has magnitude at most `4 * maxForce`. -/
theorem applied_steering_bounds (b : Boid) (others : List Boid) (mousePos : Vec3) :
    ((b.separation others).smul CONFIG.separationWeight).length ≤
        CONFIG.separationWeight * CONFIG.maxForce ∧
    ((b.alignment others).smul CONFIG.alignmentWeight).length ≤
        CONFIG.alignmentWeight * CONFIG.maxForce ∧
    ((b.cohesion others).smul CONFIG.cohesionWeight).length ≤
        CONFIG.cohesionWeight * CONFIG.maxForce ∧
    ((b.mouseRepel mousePos).2).length ≤ 4 * CONFIG.maxForce := by
  refine ⟨?_, ?_, ?_, ?_⟩
  · rw [Vec3.length_smul,
      abs_of_nonneg (by norm_num [CONFIG.separationWeight] :
        (0:ℝ) ≤ CONFIG.separationWeight)]
    exact mul_le_mul_of_nonneg_left (separation_length_le b others)
      (by norm_num [CONFIG.separationWeight])
  · rw [Vec3.length_smul,
      abs_of_nonneg (by norm_num [CONFIG.alignmentWeight] :
        (0:ℝ) ≤ CONFIG.alignmentWeight)]
    exact mul_le_mul_of_nonneg_left (alignment_length_le b others)
      (by norm_num [CONFIG.alignmentWeight])
  · rw [Vec3.length_smul,
      abs_of_nonneg (by norm_num [CONFIG.cohesionWeight] :
        (0:ℝ) ≤ CONFIG.cohesionWeight)]
    exact mul_le_mul_of_nonneg_left (cohesion_length_le b others)
      (by norm_num [CONFIG.cohesionWeight])
  · exact (mouseRepel_force_le b mousePos).trans_eq (mul_comm _ _)

/-- C2 (counterexample): for a boid at the origin with zero velocity and
a single neighbour at distance 1, the separation contribution as applied
(weight `1.5` multiplied in) has magnitude `0.075 > maxForce`. -/
theorem separation_weighted_exceeds_maxForce :
    CONFIG.maxForce <
      ((Boid.separation
          { position := ⟨0, 0, 0⟩, velocity := ⟨0, 0, 0⟩, acceleration := ⟨0, 0, 0⟩,
            homePosition := ⟨0, 0, 0⟩, isNearMouse := false }
          [{ position := ⟨1, 0, 0⟩, velocity := ⟨0, 0, 0⟩, acceleration := ⟨0, 0, 0⟩,
             homePosition := ⟨0, 0, 0⟩, isNearMouse := false }]).smul
        CONFIG.separationWeight).length := by
  have hd : Vec3.distanceTo ⟨0, 0, 0⟩ ⟨1, 0, 0⟩ = 1 := by
    rw [Vec3.distanceTo_single]
    norm_num
  simp only [Boid.separation, List.foldl_cons, List.foldl_nil, hd]
  have hc : ((0:ℝ) < 1 ∧ (1:ℝ) < CONFIG.separationRadius) := by
    norm_num [CONFIG.separationRadius]
  have hsub : (Vec3.mk 0 0 0) - (Vec3.mk 1 0 0) = ⟨-1, 0, 0⟩ := by
    ext <;> simp
  have hnorm : (Vec3.mk (-1) 0 0).normalize = ⟨-1, 0, 0⟩ := by
    rw [Vec3.normalize, Vec3.length_single, show |(-1:ℝ)| = 1 by norm_num,
      Vec3.orOne_of_ne _ one_ne_zero]
    ext <;> simp
  have h11 : (Vec3.mk (-1) 0 0).smul (1 / 1) = ⟨-1, 0, 0⟩ := by
    ext <;> simp
  have hz : Vec3.zero + (Vec3.mk (-1) 0 0) = ⟨-1, 0, 0⟩ := by
    ext <;> simp [Vec3.zero]
  have hn : (0:ℕ) < 0 + 1 := by norm_num
  have hcast : (((0:ℕ) + 1 : ℕ) : ℝ) = 1 := by norm_num
  have hms : (Vec3.mk (-1) 0 0).smul CONFIG.maxSpeed = ⟨-2, 0, 0⟩ := by
    ext <;> simp [CONFIG.maxSpeed]
  have hsub2 : (Vec3.mk (-2) 0 0) - (Vec3.mk 0 0 0) = ⟨-2, 0, 0⟩ := by
    ext <;> simp
  have hlen2 : (Vec3.mk (-2) 0 0).length = 2 := by
    rw [Vec3.length_single]
    norm_num
  have hcl : (Vec3.mk (-2) 0 0).clampLength 0 CONFIG.maxForce = ⟨-(1/20), 0, 0⟩ := by
    rw [Vec3.clampLength, hlen2, Vec3.orOne_of_ne _ (by norm_num : (2:ℝ) ≠ 0)]
    ext <;> simp [CONFIG.maxForce] <;> norm_num [min_def, max_def]
  have hfin : (Vec3.mk (-(1/20)) 0 0).smul CONFIG.separationWeight = ⟨-(3/40), 0, 0⟩ := by
    ext <;> simp [CONFIG.separationWeight] <;> norm_num
  simp only [if_pos hc, hsub, hnorm, h11, hz, if_pos hn, hcast, hnorm, hms, hsub2, hcl, hfin]
  rw [show (Vec3.mk (-(3/40)) 0 0).length = |(-(3/40):ℝ)| from Vec3.length_single _]
  norm_num [CONFIG.maxForce]
  rw [show |(3/40:ℝ)| = 3/40 from abs_of_nonneg (by norm_num)]
  norm_num

/-- C9: a boid with no other boid at strictly positive distance within
the relevant radius receives exactly the zero vector from separation,
alignment and cohesion: every neighbour check requires `0 < d`, and the
divisions by count and by distance are only reached when a qualifying
neighbour exists. -/
theorem isolated_steering_zero (b : Boid) (others : List Boid)
    (hsep : ∀ o ∈ others, ¬(0 < b.position.distanceTo o.position ∧
        b.position.distanceTo o.position < CONFIG.separationRadius))
    (hali : ∀ o ∈ others, ¬(0 < b.position.distanceTo o.position ∧
        b.position.distanceTo o.position < CONFIG.alignmentRadius))
    (hcoh : ∀ o ∈ others, ¬(0 < b.position.distanceTo o.position ∧
        b.position.distanceTo o.position < CONFIG.cohesionRadius)) :
    b.separation others = Vec3.zero ∧ b.alignment others = Vec3.zero ∧
      b.cohesion others = Vec3.zero := by
  refine ⟨?_, ?_, ?_⟩
  · unfold Boid.separation
    dsimp only
    rw [foldl_fixed _ _ _ (fun o ho q => by simp only [if_neg (hsep o ho)])]
    rfl
  · unfold Boid.alignment
    dsimp only
    rw [foldl_fixed _ _ _ (fun o ho q => by simp only [if_neg (hali o ho)])]
    rfl
  · unfold Boid.cohesion
    dsimp only
    rw [foldl_fixed _ _ _ (fun o ho q => by simp only [if_neg (hcoh o ho)])]
    rfl

/-- C9 (witness): a boid with an empty neighbour list receives zero
steering from all three behaviours. -/
theorem isolated_steering_zero_witness :
    Boid.separation
        { position := ⟨3, 0, 0⟩, velocity := ⟨1, 0, 0⟩, acceleration := ⟨0, 0, 0⟩,
          homePosition := ⟨0, 0, 0⟩, isNearMouse := false } [] = Vec3.zero ∧
      Boid.alignment
        { position := ⟨3, 0, 0⟩, velocity := ⟨1, 0, 0⟩, acceleration := ⟨0, 0, 0⟩,
          homePosition := ⟨0, 0, 0⟩, isNearMouse := false } [] = Vec3.zero ∧
      Boid.cohesion
        { position := ⟨3, 0, 0⟩, velocity := ⟨1, 0, 0⟩, acceleration := ⟨0, 0, 0⟩,
          homePosition := ⟨0, 0, 0⟩, isNearMouse := false } [] = Vec3.zero :=
  isolated_steering_zero _ [] (by simp) (by simp) (by simp)

/-- Clamping a positively scaled unit vector with lower bound `0`
rescales it to the min of the scale and the bound. -/
lemma clampLength_normalize_smul {u : Vec3} {s m : ℝ}
    (hu : u.length ≠ 0) (hs : 0 < s) (hm : 0 ≤ m) :
    Vec3.clampLength ((Vec3.normalize u).smul s) 0 m
      = (Vec3.normalize u).smul (min m s) := by
  have hlen : ((Vec3.normalize u).smul s).length = s := by
    rw [Vec3.length_smul, Vec3.length_normalize hu, abs_of_pos hs, mul_one]
  rw [Vec3.clampLength, hlen, Vec3.orOne_of_ne _ (ne_of_gt hs),
    max_eq_right (le_min hm hs.le), Vec3.smul_smul, mul_comm,
    div_mul_cancel₀ _ (ne_of_gt hs)]

/-- C6: if the pointer is within `mouseRepelRadius` at strictly positive
distance `d`, `mouseRepel` returns the vector in direction
`normalize(position - pointer)` of magnitude
`min (mouseRepelStrength * (1 - d / mouseRepelRadius)) (4 * maxForce)`
(linear falloff, clamped) and sets `isNearMouse`; otherwise (`d = 0` or
`d ≥ mouseRepelRadius`) it returns the zero vector and leaves the boid
unchanged. -/
theorem mouseRepel_spec (b : Boid) (m : Vec3) :
    (0 < b.position.distanceTo m ∧ b.position.distanceTo m < CONFIG.mouseRepelRadius →
      (b.mouseRepel m).2 = (Vec3.normalize (b.position - m)).smul
          (min (CONFIG.mouseRepelStrength *
              (1 - b.position.distanceTo m / CONFIG.mouseRepelRadius))
            (4 * CONFIG.maxForce)) ∧
        (b.mouseRepel m).1 = { b with isNearMouse := true }) ∧
    (b.position.distanceTo m = 0 ∨ CONFIG.mouseRepelRadius ≤ b.position.distanceTo m →
      b.mouseRepel m = (b, Vec3.zero)) := by
  constructor
  · rintro ⟨h0, hR⟩
    have hu : (b.position - m).length ≠ 0 := by
      rw [← Vec3.distanceTo_eq_length_sub]
      exact ne_of_gt h0
    have hfrac : b.position.distanceTo m / CONFIG.mouseRepelRadius < 1 :=
      (div_lt_one (by norm_num [CONFIG.mouseRepelRadius])).mpr hR
    have hs : 0 < CONFIG.mouseRepelStrength *
        (1 - b.position.distanceTo m / CONFIG.mouseRepelRadius) := by
      have h1 : (0:ℝ) < CONFIG.mouseRepelStrength := by norm_num [CONFIG.mouseRepelStrength]
      nlinarith
    unfold Boid.mouseRepel
    dsimp only
    rw [if_pos ⟨hR, h0⟩]
    refine ⟨?_, rfl⟩
    show Vec3.clampLength _ 0 (CONFIG.maxForce * 4) = _
    rw [clampLength_normalize_smul hu hs (by norm_num [CONFIG.maxForce])]
    rw [min_comm, mul_comm CONFIG.maxForce 4]
  · intro h
    unfold Boid.mouseRepel
    dsimp only
    rw [if_neg]
    rcases h with h | h
    · rintro ⟨-, h0⟩
      rw [h] at h0
      exact lt_irrefl _ h0
    · rintro ⟨hR, -⟩
      exact absurd hR (not_lt.mpr h)

/-- C6 (witness): a boid at distance 10 from the pointer is repelled
along `normalize(position - pointer)` with the clamped magnitude, and is
marked near the mouse. -/
theorem mouseRepel_spec_witness :
    (Boid.mouseRepel
        { position := ⟨10, 0, 0⟩, velocity := ⟨0, 0, 0⟩, acceleration := ⟨0, 0, 0⟩,
          homePosition := ⟨0, 0, 0⟩, isNearMouse := false } ⟨0, 0, 0⟩).2
      = (Vec3.normalize ((Vec3.mk 10 0 0) - ⟨0, 0, 0⟩)).smul
          (min (CONFIG.mouseRepelStrength *
              (1 - (Vec3.mk 10 0 0).distanceTo ⟨0, 0, 0⟩ / CONFIG.mouseRepelRadius))
            (4 * CONFIG.maxForce)) ∧
      (Boid.mouseRepel
          { position := ⟨10, 0, 0⟩, velocity := ⟨0, 0, 0⟩, acceleration := ⟨0, 0, 0⟩,
            homePosition := ⟨0, 0, 0⟩, isNearMouse := false } ⟨0, 0, 0⟩).1
        = { position := ⟨10, 0, 0⟩, velocity := ⟨0, 0, 0⟩, acceleration := ⟨0, 0, 0⟩,
            homePosition := ⟨0, 0, 0⟩, isNearMouse := true } :=
  mouseRepel_spec _ _ |>.1
    (by norm_num [Vec3.distanceTo_single, CONFIG.mouseRepelRadius])

/-- C8: after integration, `wrapEdges` sends any coordinate strictly
above `+boundarySize` to exactly `-boundarySize` and any coordinate
strictly below `-boundarySize` to exactly `+boundarySize`, independently
per axis; in particular an agent at the edge with outward velocity
appears at the opposite extreme. -/
theorem wrapEdges_spec :
    (∀ p : Vec3,
      (Boid.wrapEdges p).x = (if CONFIG.boundarySize < p.x then -CONFIG.boundarySize
        else if p.x < -CONFIG.boundarySize then CONFIG.boundarySize else p.x) ∧
      (Boid.wrapEdges p).y = (if CONFIG.boundarySize < p.y then -CONFIG.boundarySize
        else if p.y < -CONFIG.boundarySize then CONFIG.boundarySize else p.y) ∧
      (Boid.wrapEdges p).z = (if CONFIG.boundarySize < p.z then -CONFIG.boundarySize
        else if p.z < -CONFIG.boundarySize then CONFIG.boundarySize else p.z)) ∧
    (∀ p v : Vec3, p.x = CONFIG.boundarySize → 0 < v.x →
      (Boid.wrapEdges (p + v)).x = -CONFIG.boundarySize) := by
  have hb : (0:ℝ) < CONFIG.boundarySize := by norm_num [CONFIG.boundarySize]
  constructor
  · intro p
    unfold Boid.wrapEdges
    dsimp only
    refine ⟨?_, ?_, ?_⟩ <;> (split_ifs <;> first | rfl | linarith)
  · intro p v hp hv
    have h1 : CONFIG.boundarySize < (p + v).x := by
      rw [Vec3.add_x, hp]
      linarith
    unfold Boid.wrapEdges
    dsimp only
    rw [if_pos h1, if_neg (by linarith : ¬(-CONFIG.boundarySize < -CONFIG.boundarySize))]

/-- C8 (witness): an agent exactly at the positive x edge moving outward
by 1 wraps to the negative x extreme. -/
theorem wrapEdges_spec_witness :
    (Boid.wrapEdges ((Vec3.mk 300 0 0) + ⟨1, 0, 0⟩)).x = -CONFIG.boundarySize :=
  wrapEdges_spec.2 ⟨300, 0, 0⟩ ⟨1, 0, 0⟩ (by norm_num [CONFIG.boundarySize]) (by norm_num)

lemma Vec3.add_zero_vec (v : Vec3) : v + Vec3.zero = v := by
  ext <;> simp

/-- The boid returned by `mouseRepel` keeps its position. -/
lemma mouseRepel_fst_position (b : Boid) (m : Vec3) :
    (b.mouseRepel m).1.position = b.position := by
  unfold Boid.mouseRepel
  dsimp only
  split_ifs <;> rfl

/-- The boid returned by `mouseRepel` keeps its velocity. -/
lemma mouseRepel_fst_velocity (b : Boid) (m : Vec3) :
    (b.mouseRepel m).1.velocity = b.velocity := by
  unfold Boid.mouseRepel
  dsimp only
  split_ifs <;> rfl

/-- The boid returned by `mouseRepel` keeps its acceleration. -/
lemma mouseRepel_fst_acceleration (b : Boid) (m : Vec3) :
    (b.mouseRepel m).1.acceleration = b.acceleration := by
  unfold Boid.mouseRepel
  dsimp only
  split_ifs <;> rfl

/-- The boid returned by `mouseRepel` keeps its home position. -/
lemma mouseRepel_fst_homePosition (b : Boid) (m : Vec3) :
    (b.mouseRepel m).1.homePosition = b.homePosition := by
  unfold Boid.mouseRepel
  dsimp only
  split_ifs <;> rfl

/-- The force returned by `mouseRepel` depends only on the boid's
position. -/
lemma mouseRepel_snd_congr (b b' : Boid) (m : Vec3) (h : b.position = b'.position) :
    (b.mouseRepel m).2 = (b'.mouseRepel m).2 := by
  unfold Boid.mouseRepel
  dsimp only
  rw [h]
  split_ifs <;> rfl

/-- C5: per boid per frame, `flock` behaves by mode.  Formed
(`scattered = false`): velocity is zeroed, position is lerped toward
`homePosition` with blend factor `0.1`, and the only acceleration added
is mouse repulsion (evaluated at the lerped position) when the pointer
is active.  Scattered (`scattered = true`): position and velocity are
untouched and the acceleration receives exactly the weighted sum of
separation, alignment and cohesion, plus mouse repulsion when the
pointer is active. -/
theorem flock_by_mode (b : Boid) (others : List Boid) (m : Vec3) (active : Bool) :
    ((b.flock others m active false).velocity = Vec3.zero ∧
      (b.flock others m active false).position
        = Vec3.lerp b.position b.homePosition 0.1 ∧
      (b.flock others m active false).acceleration
        = b.acceleration +
          (if active then
            (Boid.mouseRepel
              { b with velocity := Vec3.zero,
                       position := Vec3.lerp b.position b.homePosition 0.1 } m).2
          else Vec3.zero)) ∧
    ((b.flock others m active true).velocity = b.velocity ∧
      (b.flock others m active true).position = b.position ∧
      (b.flock others m active true).acceleration
        = b.acceleration + (b.separation others).smul CONFIG.separationWeight
            + (b.alignment others).smul CONFIG.alignmentWeight
            + (b.cohesion others).smul CONFIG.cohesionWeight
            + (if active then (b.mouseRepel m).2 else Vec3.zero)) := by
  constructor
  · cases active with
    | false =>
      refine ⟨rfl, rfl, ?_⟩
      simp [Boid.flock, Vec3.add_zero_vec]
    | true =>
      refine ⟨mouseRepel_fst_velocity _ m, mouseRepel_fst_position _ m, ?_⟩
      simp [Boid.flock, mouseRepel_fst_acceleration]
  · cases active with
    | false =>
      refine ⟨rfl, rfl, ?_⟩
      simp [Boid.flock, Vec3.add_zero_vec]
    | true =>
      refine ⟨mouseRepel_fst_velocity _ m, mouseRepel_fst_position _ m, ?_⟩
      have hc := mouseRepel_snd_congr
        { b with acceleration := b.acceleration
            + (b.separation others).smul CONFIG.separationWeight
            + (b.alignment others).smul CONFIG.alignmentWeight
            + (b.cohesion others).smul CONFIG.cohesionWeight } b m rfl
      simp [Boid.flock, mouseRepel_fst_acceleration, hc]

/-- C10: the steering computations are pure with respect to agent state
(in this embedding `separation`, `alignment`, `cohesion` and `seek` are
state-free functions returning only a vector); the sole steering side
effect is `mouseRepel` setting the acting boid's `isNearMouse` flag —
every other field of the acting boid is preserved, `flock` never changes
any boid's `homePosition`, and a `flock` step for boid `i` leaves every
other boid of the swarm untouched. -/
theorem steering_purity (b : Boid) (others : List Boid) (m : Vec3) :
    (b.mouseRepel m).1.position = b.position ∧
    (b.mouseRepel m).1.velocity = b.velocity ∧
    (b.mouseRepel m).1.acceleration = b.acceleration ∧
    (b.mouseRepel m).1.homePosition = b.homePosition ∧
    ((b.mouseRepel m).1 = b ∨ (b.mouseRepel m).1 = { b with isNearMouse := true }) ∧
    (∀ active scattered : Bool,
      (b.flock others m active scattered).homePosition = b.homePosition) ∧
    (∀ (arr : List Boid) (active scattered : Bool) (i j : Nat), j ≠ i →
      (flockAt m active scattered arr i).get? j = arr.get? j) := by
  refine ⟨mouseRepel_fst_position b m, mouseRepel_fst_velocity b m,
    mouseRepel_fst_acceleration b m, mouseRepel_fst_homePosition b m, ?_, ?_, ?_⟩
  · unfold Boid.mouseRepel
    dsimp only
    split_ifs
    · exact Or.inr rfl
    · exact Or.inl rfl
  · intro active scattered
    cases active with
    | false =>
      cases scattered <;> rfl
    | true =>
      cases scattered <;> exact mouseRepel_fst_homePosition _ m
  · intro arr active scattered i j hj
    unfold flockAt
    cases harr : arr.get? i with
    | none => rfl
    | some bi => exact List.get?_set_ne _ _ (fun h => hj h.symm)

/-- C10 (witness): a concrete `flock` step for boid 0 leaves boid 1
untouched, and `mouseRepel` far from the pointer preserves the boid. -/
theorem steering_purity_witness :
    (flockAt ⟨0, 0, 0⟩ true true
        [{ position := ⟨1, 0, 0⟩, velocity := ⟨0, 0, 0⟩, acceleration := ⟨0, 0, 0⟩,
           homePosition := ⟨0, 0, 0⟩, isNearMouse := false },
         { position := ⟨2, 0, 0⟩, velocity := ⟨0, 0, 0⟩, acceleration := ⟨0, 0, 0⟩,
           homePosition := ⟨0, 0, 0⟩, isNearMouse := false }] 0).get? 1
      = some { position := ⟨2, 0, 0⟩, velocity := ⟨0, 0, 0⟩, acceleration := ⟨0, 0, 0⟩,
               homePosition := ⟨0, 0, 0⟩, isNearMouse := false } := by
  rw [(steering_purity
      { position := ⟨1, 0, 0⟩, velocity := ⟨0, 0, 0⟩, acceleration := ⟨0, 0, 0⟩,
        homePosition := ⟨0, 0, 0⟩, isNearMouse := false } [] ⟨0, 0, 0⟩).2.2.2.2.2.2
    _ true true 0 1 (by norm_num)]
  rfl

/-- In scattered mode `flock` leaves the acting boid's position
unchanged. -/
lemma flock_true_position (b : Boid) (others : List Boid) (m : Vec3) (active : Bool) :
    (b.flock others m active true).position = b.position := by
  cases active with
  | false => rfl
  | true => exact mouseRepel_fst_position _ m

/-- In scattered mode `flock` leaves the acting boid's velocity
unchanged. -/
lemma flock_true_velocity (b : Boid) (others : List Boid) (m : Vec3) (active : Bool) :
    (b.flock others m active true).velocity = b.velocity := by
  cases active with
  | false => rfl
  | true => exact mouseRepel_fst_velocity _ m

/-- Setting an index to the element it already holds is the identity. -/
lemma set_get?_self {α : Type} (l : List α) (i : Nat) (a : α) (h : l.get? i = some a) :
    l.set i a = l := by
  apply List.ext_get?_iff.mpr
  intro n
  rcases eq_or_ne n i with rfl | hne
  · rw [List.get?_set_eq_of_lt _ (by
      rw [List.get?_eq_getElem?] at h
      exact (List.getElem?_eq_some.mp h).1), h]
  · rw [List.get?_set_ne _ _ (fun hh => hne hh.symm)]

/-- One scattered-mode flock step preserves all positions and
velocities. -/
lemma flockAt_map_pv (m : Vec3) (active : Bool) (arr : List Boid) (i : Nat) :
    (flockAt m active true arr i).map (fun b => (b.position, b.velocity))
      = arr.map (fun b => (b.position, b.velocity)) := by
  unfold flockAt
  cases harr : arr.get? i with
  | none => rfl
  | some bi =>
    rw [List.map_set]
    apply set_get?_self
    simp only [List.get?_map, harr, Option.map_some', flock_true_position,
      flock_true_velocity]

/-- The scattered-mode flock pass preserves all positions and
velocities, for any number of steps from any index. -/
lemma flockPassN_map_pv (m : Vec3) (active : Bool) :
    ∀ (n i : Nat) (arr : List Boid),
      (flockPassN m active true n i arr).map (fun b => (b.position, b.velocity))
        = arr.map (fun b => (b.position, b.velocity)) := by
  intro n
  induction n with
  | zero => intro i arr; rfl
  | succ k ih =>
    intro i arr
    rw [show flockPassN m active true (k + 1) i arr
        = flockPassN m active true k (i + 1) (flockAt m active true arr i) from rfl]
    rw [ih (i + 1) (flockAt m active true arr i), flockAt_map_pv]

/-- C3 (amended): when the mode is Scattered the first (flock) pass over
the swarm leaves every boid's position and velocity unchanged — steering
reads a consistent previous-frame snapshot and kinematic mutation
happens only in the second (update) pass.  In Formed mode the flock pass
itself zeroes velocities and lerps positions toward home (see the
counterexample), so the unconditional claim fails. -/
theorem flockPass_scattered_snapshot (arr : List Boid) (m : Vec3) (active : Bool) :
    (flockPass arr m active true).map (fun b => (b.position, b.velocity))
      = arr.map (fun b => (b.position, b.velocity)) := by
  unfold flockPass
  exact flockPassN_map_pv m active arr.length 0 arr

/-- C3 (counterexample): in Formed mode the first (flock) pass mutates
position and velocity: a single boid at x = 10 with home at the origin
leaves the flock pass at x = 9 with zero velocity. -/
theorem flockPass_formed_mutates :
    (flockPass
        [{ position := ⟨10, 0, 0⟩, velocity := ⟨1, 0, 0⟩, acceleration := ⟨0, 0, 0⟩,
           homePosition := ⟨0, 0, 0⟩, isNearMouse := false }] ⟨0, 0, 0⟩ false false).map
        (fun b => (b.position, b.velocity))
      ≠ [((⟨10, 0, 0⟩ : Vec3), (⟨1, 0, 0⟩ : Vec3))] := by
  intro h
  simp only [flockPass, List.length_cons, List.length_nil, flockPassN, flockAt,
    List.get?, Boid.flock, List.set, List.map, List.eraseIdx] at h
  rw [List.cons.injEq, Prod.mk.injEq] at h
  have hx := congrArg Vec3.x h.1.1
  simp at hx
  norm_num at hx

/-- C4: the mode controller evaluated once per frame before the swarm
update.  If the pointer is active and some boid is within the collision
threshold (30), the frame ends Scattered with the timer re-armed to the
full `SCATTER_DURATION` (whatever the previous state, so a re-trigger
extends rather than stacks).  Absent any re-trigger the state stays
Scattered for exactly `SCATTER_DURATION` frames counting the trigger
frame — the next `SCATTER_DURATION - 1` frames remain Scattered while
the timer counts down — and on the following frame it reverts to
Formed. -/
theorem mode_controller_spec :
    (∀ (boids : List Boid) (mousePos : Vec3) (s : ModeState) (b : Boid),
      b ∈ boids → b.position.distanceTo mousePos < 30 →
      modeFrame boids mousePos true s
        = { isScattered := true, scatterTimer := SCATTER_DURATION - 1 }) ∧
    (∀ (boids : List Boid) (mousePos : Vec3) (active : Bool),
      triggerCheck boids mousePos active = false →
      (∀ k : Nat, k ≤ SCATTER_DURATION - 1 →
        (modeFrame boids mousePos active)^[k]
            { isScattered := true, scatterTimer := SCATTER_DURATION - 1 }
          = { isScattered := true, scatterTimer := SCATTER_DURATION - 1 - k }) ∧
      (modeFrame boids mousePos active)^[SCATTER_DURATION]
          { isScattered := true, scatterTimer := SCATTER_DURATION - 1 }
        = { isScattered := false, scatterTimer := 0 }) := by
  constructor
  · intro boids mousePos s b hb hd
    have ht : triggerCheck boids mousePos true = true := by
      unfold triggerCheck
      rw [Bool.true_and]
      exact List.any_eq_true.mpr ⟨b, hb, decide_eq_true hd⟩
    norm_num [modeFrame, ht, SCATTER_DURATION]
  · intro boids mousePos active h
    have hstep : ∀ s : ModeState, modeFrame boids mousePos active s
        = if 0 < s.scatterTimer then { s with scatterTimer := s.scatterTimer - 1 }
          else { s with isScattered := false } := by
      intro s
      unfold modeFrame
      rw [h]
      rfl
    have hcount : ∀ (k t : Nat), k ≤ t →
        (modeFrame boids mousePos active)^[k] { isScattered := true, scatterTimer := t }
          = { isScattered := true, scatterTimer := t - k } := by
      intro k
      induction k with
      | zero => intro t _; rfl
      | succ n ih =>
        intro t hkt
        rw [Function.iterate_succ_apply, hstep]
        have hpos : 0 < ({ isScattered := true, scatterTimer := t } : ModeState).scatterTimer := by
          show 0 < t
          omega
        rw [if_pos hpos]
        show (modeFrame boids mousePos active)^[n]
            { isScattered := true, scatterTimer := t - 1 } = _
        rw [ih (t - 1) (by omega)]
        congr 1
        omega
    refine ⟨fun k hk => hcount k (SCATTER_DURATION - 1) hk, ?_⟩
    have h179 : (modeFrame boids mousePos active)^[179]
        { isScattered := true, scatterTimer := 179 }
        = { isScattered := true, scatterTimer := 0 } := by
      exact hcount 179 179 le_rfl
    show (modeFrame boids mousePos active)^[180]
        { isScattered := true, scatterTimer := 179 }
        = { isScattered := false, scatterTimer := 0 }
    rw [show (180:ℕ) = 179 + 1 from rfl, Function.iterate_succ_apply', h179, hstep]
    norm_num

/-- C4 (witness): a pointer touching a boid at distance 0 scatters the
mode with a full timer, and 180 trigger-free frames later the mode is
Formed again. -/
theorem mode_controller_spec_witness :
    modeFrame
        [{ position := ⟨0, 0, 0⟩, velocity := ⟨0, 0, 0⟩, acceleration := ⟨0, 0, 0⟩,
           homePosition := ⟨0, 0, 0⟩, isNearMouse := false }] ⟨0, 0, 0⟩ true
        { isScattered := false, scatterTimer := 0 }
      = { isScattered := true, scatterTimer := SCATTER_DURATION - 1 } ∧
    (modeFrame [] ⟨0, 0, 0⟩ false)^[SCATTER_DURATION]
        { isScattered := true, scatterTimer := SCATTER_DURATION - 1 }
      = { isScattered := false, scatterTimer := 0 } :=
  ⟨mode_controller_spec.1 _ ⟨0, 0, 0⟩ _ _ (List.mem_cons_self _ _)
      (by norm_num [Vec3.distanceTo_single]),
    (mode_controller_spec.2 [] ⟨0, 0, 0⟩ false rfl).2⟩

/-- All three coordinates lie within the boundary cube. -/
def inBounds (p : Vec3) : Prop :=
  -CONFIG.boundarySize ≤ p.x ∧ p.x ≤ CONFIG.boundarySize ∧
  -CONFIG.boundarySize ≤ p.y ∧ p.y ≤ CONFIG.boundarySize ∧
  -CONFIG.boundarySize ≤ p.z ∧ p.z ≤ CONFIG.boundarySize

lemma Vec3.zero_add_vec (v : Vec3) : Vec3.zero + v = v := by
  ext <;> simp

lemma Vec3.clampLength_zero (lo hi : ℝ) :
    Vec3.clampLength Vec3.zero lo hi = Vec3.zero := by
  unfold Vec3.clampLength
  exact Vec3.smul_zero_vec _

/-- Inside the boundary cube the wrap is the identity (the checks are
strict). -/
lemma wrapEdges_of_inBounds (p : Vec3) (h : inBounds p) : Boid.wrapEdges p = p := by
  obtain ⟨h1, h2, h3, h4, h5, h6⟩ := h
  unfold Boid.wrapEdges
  dsimp only
  ext <;> dsimp only <;> split_ifs <;> first | rfl | linarith

/-- The formed-mode lerp keeps the boid inside the boundary cube when
the home position is inside it. -/
lemma lerp_inBounds {p h : Vec3} (hp : inBounds p) (hh : inBounds h) :
    inBounds (Vec3.lerp p h 0.1) := by
  obtain ⟨a1, a2, a3, a4, a5, a6⟩ := hp
  obtain ⟨b1, b2, b3, b4, b5, b6⟩ := hh
  refine ⟨?_, ?_, ?_, ?_, ?_, ?_⟩ <;>
    simp only [Vec3.lerp_x, Vec3.lerp_y, Vec3.lerp_z] <;> nlinarith

/-- One formed-mode lerp scales the distance to home by exactly 0.9. -/
lemma lerp_dist (p h : Vec3) :
    (Vec3.lerp p h 0.1).distanceTo h = 0.9 * p.distanceTo h := by
  rw [Vec3.distanceTo_eq_length_sub, Vec3.distanceTo_eq_length_sub,
    show Vec3.lerp p h 0.1 - h = (p - h).smul 0.9 from by ext <;> simp <;> ring,
    Vec3.length_smul]
  norm_num

/-- One full formed-mode frame with the pointer inactive and no residual
acceleration: velocity ends at zero, the position is the lerp toward
home, and the acceleration is reset. -/
lemma frameFormed_eq (others : List Boid) (m : Vec3) (b : Boid)
    (hp : inBounds b.position) (hh : inBounds b.homePosition)
    (ha : b.acceleration = Vec3.zero) :
    frameFormed others m b
      = { position := Vec3.lerp b.position b.homePosition 0.1,
          velocity := Vec3.zero, acceleration := Vec3.zero,
          homePosition := b.homePosition, isNearMouse := false } := by
  have hbf : b.flock others m false false
      = { b with velocity := Vec3.zero,
                 position := Vec3.lerp b.position b.homePosition 0.1 } := rfl
  unfold frameFormed
  rw [hbf]
  unfold Boid.update
  dsimp only
  rw [ha, Vec3.zero_add_vec, Vec3.clampLength_zero]
  split_ifs <;>
    simp only [Vec3.smul_zero_vec, Vec3.add_zero_vec,
      wrapEdges_of_inBounds _ (lerp_inBounds hp hh)]

/-- Iterated formed-mode frames: the state stays in bounds with zero
acceleration and fixed home, and the distance to home is scaled by 0.9
each frame. -/
lemma frameFormed_iter (others : List Boid) (m : Vec3) (b : Boid)
    (hp : inBounds b.position) (hh : inBounds b.homePosition)
    (ha : b.acceleration = Vec3.zero) :
    ∀ n : Nat,
      inBounds ((frameFormed others m)^[n] b).position ∧
      ((frameFormed others m)^[n] b).homePosition = b.homePosition ∧
      ((frameFormed others m)^[n] b).acceleration = Vec3.zero ∧
      ((frameFormed others m)^[n] b).position.distanceTo b.homePosition
        = (0.9:ℝ)^n * (b.position.distanceTo b.homePosition) := by
  intro n
  induction n with
  | zero => exact ⟨hp, rfl, ha, by norm_num⟩
  | succ k ih =>
    obtain ⟨ih1, ih2, ih3, ih4⟩ := ih
    have hhk : inBounds ((frameFormed others m)^[k] b).homePosition := by
      rw [ih2]
      exact hh
    have heq := frameFormed_eq others m _ ih1 hhk ih3
    rw [Function.iterate_succ_apply', heq]
    refine ⟨lerp_inBounds ih1 hhk, ih2, rfl, ?_⟩
    show (Vec3.lerp _ _ 0.1).distanceTo b.homePosition = _
    rw [← ih2, lerp_dist, ih2, ih4]
    ring

/-- C7 (amended): for a boid whose position and home position lie inside
the boundary cube (as holds for every state the sketch reaches), with
the mode Formed, the pointer inactive and no residual acceleration, the
distance to `homePosition` is multiplied by exactly 0.9 each frame —
hence non-increasing — and the velocity is exactly zero after every
frame.  For positions outside the cube the boundary wrap can
teleport the boid away from home, defeating monotonicity (see the
counterexample). -/
theorem formed_convergence (others : List Boid) (m : Vec3) (b : Boid)
    (hp : inBounds b.position) (hh : inBounds b.homePosition)
    (ha : b.acceleration = Vec3.zero) (n : Nat) :
    ((frameFormed others m)^[n] b).position.distanceTo b.homePosition
        = (0.9:ℝ)^n * (b.position.distanceTo b.homePosition) ∧
      ((frameFormed others m)^[n+1] b).position.distanceTo b.homePosition
        ≤ ((frameFormed others m)^[n] b).position.distanceTo b.homePosition ∧
      ((frameFormed others m)^[n+1] b).velocity = Vec3.zero := by
  have h := frameFormed_iter others m b hp hh ha
  refine ⟨(h n).2.2.2, ?_, ?_⟩
  · rw [(h n).2.2.2, (h (n+1)).2.2.2]
    have hd : 0 ≤ b.position.distanceTo b.homePosition := by
      rw [Vec3.distanceTo_eq_length_sub]
      exact Vec3.length_nonneg _
    have hpow : (0.9:ℝ)^(n+1) ≤ (0.9:ℝ)^n := by
      apply pow_le_pow_of_le_one (by norm_num) (by norm_num)
      omega
    nlinarith
  · rw [Function.iterate_succ_apply',
      frameFormed_eq others m _ (h n).1 (by rw [(h n).2.1]; exact hh) (h n).2.2.1]

/-- C7 (witness): a boid at x = 100 with home at the origin, formed mode
and inactive pointer, ends one frame at 0.9 times the distance. -/
theorem formed_convergence_witness :
    ((frameFormed [] ⟨0, 0, 0⟩)^[1]
        { position := ⟨100, 0, 0⟩, velocity := ⟨1, 2, 3⟩, acceleration := ⟨0, 0, 0⟩,
          homePosition := ⟨0, 0, 0⟩, isNearMouse := false }).position.distanceTo ⟨0, 0, 0⟩
      = (0.9:ℝ)^1 * ((Vec3.mk 100 0 0).distanceTo ⟨0, 0, 0⟩) :=
  (formed_convergence [] ⟨0, 0, 0⟩ _
    (by norm_num [inBounds, CONFIG.boundarySize])
    (by norm_num [inBounds, CONFIG.boundarySize]) rfl 1).1

/-- C7 (counterexample): from an arbitrary (out-of-bounds) position the
claim fails: a formed boid at x = 310 with home at x = 299 lerps to
x = 308.9, which the boundary wrap teleports to x = -300, so its
distance to home jumps from 11 to 599. -/
theorem formed_distance_increases :
    (Vec3.mk 310 0 0).distanceTo ⟨299, 0, 0⟩
      < (frameFormed [] ⟨0, 0, 0⟩
          { position := ⟨310, 0, 0⟩, velocity := ⟨0, 0, 0⟩, acceleration := ⟨0, 0, 0⟩,
            homePosition := ⟨299, 0, 0⟩, isNearMouse := false
            }).position.distanceTo ⟨299, 0, 0⟩ := by
  have hbf : Boid.flock
      { position := ⟨310, 0, 0⟩, velocity := ⟨0, 0, 0⟩, acceleration := ⟨0, 0, 0⟩,
        homePosition := ⟨299, 0, 0⟩, isNearMouse := false } [] ⟨0, 0, 0⟩ false false
      = { position := Vec3.lerp ⟨310, 0, 0⟩ ⟨299, 0, 0⟩ 0.1, velocity := Vec3.zero,
          acceleration := ⟨0, 0, 0⟩, homePosition := ⟨299, 0, 0⟩,
          isNearMouse := false } := rfl
  have hlerp : Vec3.lerp ⟨310, 0, 0⟩ ⟨299, 0, 0⟩ 0.1 = Vec3.mk (3089/10) 0 0 := by
    ext <;> simp <;> norm_num
  have hd1 : (Vec3.mk (3089/10) 0 0).distanceTo ⟨299, 0, 0⟩ = 99/10 := by
    rw [Vec3.distanceTo_single]
    rw [show (3089/10 : ℝ) - 299 = 99/10 by norm_num]
    rw [abs_of_nonneg (by norm_num)]
  have h00 : Vec3.zero + (Vec3.mk 0 0 0) = Vec3.zero := by
    ext <;> simp
  have hwrap : Boid.wrapEdges ⟨3089/10, 0, 0⟩ = ⟨-300, 0, 0⟩ := by
    unfold Boid.wrapEdges
    dsimp only
    ext <;> dsimp only <;> norm_num [CONFIG.boundarySize]
  unfold frameFormed
  rw [hbf]
  unfold Boid.update
  dsimp only
  rw [hlerp, h00, Vec3.clampLength_zero, hd1]
  rw [if_pos (by norm_num : (99/10:ℝ) < 20)]
  rw [Vec3.smul_zero_vec]
  rw [show (if (false : Bool) = true then Vec3.zero else Vec3.zero) = Vec3.zero from
    by norm_num]
  rw [Vec3.add_zero_vec, hwrap]
  rw [Vec3.distanceTo_single, Vec3.distanceTo_single]
  rw [abs_of_nonneg (by norm_num : (0:ℝ) ≤ 310 - 299)]
  rw [show |(-300:ℝ) - 299| = 599 by rw [abs_of_nonpos (by norm_num)]; norm_num]
  norm_num
